import Mathlib

/-!
Verification of the `tue` fixed-size linear-algebra library: the matrix type
family (`mat<T, C, R>`, stored as `C` columns, each a `vec<T, R>`) from
`src/include/tue/detail_/mat3xR.hpp` and `mat4xR.hpp`, and the rotation
conversion module from `src/include/tue/transform.hpp`.

A matrix `mat<T, C, R>` is embedded as `Fin C → (Fin R → T)` (the array of
columns).  The vector family (`vec.hpp`) is not part of the provided sources;
the few vector operations the matrix and transform code relies on
(construction, truncation, `extend_`, broadcast arithmetic, `length`,
`select`, `not_equal`, `sincos`, the unit-Z constant) are modelled from the
specification's description of that external family, and are marked as such.
-/

namespace Tue

/-- A fixed-length vector `vec<T, R>`: `R` components of type `T`, indexed by
row.  Storage member of the matrix family. -/
abbrev Vec (T : Type) (R : ℕ) := Fin R → T

/-- A matrix `mat<T, C, R>`: `C` columns, each a `vec<T, R>`
(column-major storage, element `(row j, col i)` is `columns[i][j]`). -/
abbrev Mat (T : Type) (C R : ℕ) := Fin C → Vec T R

variable {T : Type} {C R R' : ℕ}

/-- Modelled from the spec: the external vector family's 2-component
constructor `vec<T, 2>(a, b)`. -/
def vec2l (a b : T) : Vec T 2 :=
  fun j => if j.val = 0 then a else b

/-- Modelled from the spec: the external vector family's 3-component
constructor `vec<T, 3>(a, b, c)`. -/
def vec3l (a b c : T) : Vec T 3 :=
  fun j => if j.val = 0 then a else if j.val = 1 then b else c

/-- Modelled from the spec: the external vector family's 4-component
constructor `vec<T, 4>(a, b, c, d)`. -/
def vec4l (a b c d : T) : Vec T 4 :=
  fun j => if j.val = 0 then a else if j.val = 1 then b else if j.val = 2 then c else d

/-- Modelled from the spec: the truncating conversion `vec<T, R>(vec<T, 4>)`
used by the matrix scalar and basis-column constructors.  The family only
instantiates `R ≤ 4`; components beyond index 3 (never used) are zero. -/
def ofVec4 [Zero T] (v : Vec T 4) : Vec T R :=
  fun j => if h : j.val < 4 then v ⟨j.val, h⟩ else 0

/-- Modelled from the spec: `vec<T, R>::extend_(other, a, b)` from the
external vector family (`vec.hpp`, not among the provided sources).  Per §3
of the spec, extension keeps the source components and fills the inserted
rows; the matrix constructors pass one fill value for row 2 and one for
row 3 (so e.g. `vec4::extend_(vec3 v, a, b) = (v[0], v[1], v[2], b)` and
`vec4::extend_(vec2 v, a, b) = (v[0], v[1], a, b)`), which is exactly what
makes §3's "zero fill except `1` at the diagonal row" rule come out of the
constructor calls.  A source at least as long as the target is truncated
(§3's truncate path). -/
def extend_ (v : Vec T R') (a b : T) : Vec T R :=
  fun j => if h : j.val < R' then v ⟨j.val, h⟩ else if j.val = 2 then a else b

/-- Column-tuple constructor of `mat<T, 2, R>` (modelled from the spec;
`mat2xR.hpp` is not among the provided sources). -/
def cols2 (c0 c1 : Vec T R) : Mat T 2 R :=
  fun i => if i.val = 0 then c0 else c1

/-- Column constructor of `mat<T, 3, R>` (mat3xR.hpp lines 48-56). -/
def cols3 (c0 c1 c2 : Vec T R) : Mat T 3 R :=
  fun i => if i.val = 0 then c0 else if i.val = 1 then c1 else c2

/-- Column constructor of `mat<T, 4, R>` (mat4xR.hpp lines 47-58). -/
def cols4 (c0 c1 c2 c3 : Vec T R) : Mat T 4 R :=
  fun i => if i.val = 0 then c0 else if i.val = 1 then c1 else if i.val = 2 then c2 else c3

/-- Member `column(i)` of the matrix family: returns a copy of column `i`
(mat3xR.hpp lines 118-122, mat4xR.hpp lines 119-122). -/
def column (m : Mat T C R) (i : Fin C) : Vec T R := m i

/-- Member `set_column(i, v)` of the matrix family: replaces column `i`
(`impl_.columns[i] = column`; mat3xR.hpp lines 124-130, mat4xR.hpp
lines 124-127). -/
def set_column (m : Mat T C R) (i : Fin C) (v : Vec T R) : Mat T C R :=
  fun k => if k = i then v else m k

/-- Member `row(j)` of the matrix family: gathers component `j` of every
column into a fresh `vec<T, C>` (mat3xR.hpp lines 135-143, mat4xR.hpp
lines 129-137; each overload is this gather at its fixed column count). -/
def row (m : Mat T C R) (j : Fin R) : Vec T C := fun i => m i j

/-- Scalar (diagonal-fill) constructor of `mat<T, 3, R>`
(mat3xR.hpp lines 38-43). -/
def mat3_scalar [Zero T] (s : T) : Mat T 3 R :=
  cols3 (ofVec4 (vec4l s 0 0 0)) (ofVec4 (vec4l 0 s 0 0)) (ofVec4 (vec4l 0 0 s 0))

/-- Scalar (diagonal-fill) constructor of `mat<T, 4, R>`
(mat4xR.hpp lines 38-45). -/
def mat4_scalar [Zero T] (s : T) : Mat T 4 R :=
  cols4 (ofVec4 (vec4l s 0 0 0)) (ofVec4 (vec4l 0 s 0 0))
    (ofVec4 (vec4l 0 0 s 0)) (ofVec4 (vec4l 0 0 0 s))

/-- Modelled from the spec: the scalar constructor of `mat<T, 2, R>`
(`mat2xR.hpp` is not among the provided sources; §3 scalar diagonal fill). -/
def mat2_scalar [Zero T] (s : T) : Mat T 2 R :=
  cols2 (ofVec4 (vec4l s 0 0 0)) (ofVec4 (vec4l 0 s 0 0))

/-- Factory `mat<T, 3, R>::identity()` (mat3xR.hpp line 112). -/
def mat3_identity [Zero T] [One T] : Mat T 3 R := mat3_scalar 1

/-- Factory `mat<T, 3, R>::zero()` (mat3xR.hpp line 113). -/
def mat3_zero [Zero T] : Mat T 3 R := mat3_scalar 0

/-- Factory `mat<T, 4, R>::identity()` (mat4xR.hpp lines 111-113). -/
def mat4_identity [Zero T] [One T] : Mat T 4 R := mat4_scalar 1

/-- Factory `mat<T, 4, R>::zero()` (mat4xR.hpp lines 115-117). -/
def mat4_zero [Zero T] : Mat T 4 R := mat4_scalar 0

/-- Modelled from the spec: `mat<T, 2, R>::identity()` (`mat2xR.hpp` not in
the provided sources). -/
def mat2_identity [Zero T] [One T] : Mat T 2 R := mat2_scalar 1

/-- Modelled from the spec: `mat<T, 2, R>::zero()` (`mat2xR.hpp` not in the
provided sources). -/
def mat2_zero [Zero T] : Mat T 2 R := mat2_scalar 0

/-- Extend/truncate constructor `mat<T, 3, R>(const mat<T, 2, OtherR>&)`
(mat3xR.hpp lines 61-67). -/
def mat3_from_mat2 [Zero T] [One T] (other : Mat T 2 R') : Mat T 3 R :=
  cols3 (extend_ (other 0) 0 0) (extend_ (other 1) 0 0)
    (ofVec4 (vec4l 0 0 1 0))

/-- Extend/truncate constructor `mat<T, 3, R>(const mat<T, 3, OtherR>&)`
(mat3xR.hpp lines 69-75). -/
def mat3_from_mat3 [Zero T] [One T] (other : Mat T 3 R') : Mat T 3 R :=
  cols3 (extend_ (other 0) 0 0) (extend_ (other 1) 0 0)
    (extend_ (other 2) 1 0)

/-- Extend/truncate constructor `mat<T, 3, R>(const mat<T, 4, OtherR>&)`
(mat3xR.hpp lines 77-83). -/
def mat3_from_mat4 [Zero T] [One T] (other : Mat T 4 R') : Mat T 3 R :=
  cols3 (extend_ (other 0) 0 0) (extend_ (other 1) 0 0)
    (extend_ (other 2) 1 0)

/-- Extend/truncate constructor `mat<T, 4, R>(const mat<T, 2, OtherR>&)`
(mat4xR.hpp lines 60-68). -/
def mat4_from_mat2 [Zero T] [One T] (other : Mat T 2 R') : Mat T 4 R :=
  cols4 (extend_ (other 0) 0 0) (extend_ (other 1) 0 0)
    (ofVec4 (vec4l 0 0 1 0)) (ofVec4 (vec4l 0 0 0 1))

/-- Extend/truncate constructor `mat<T, 4, R>(const mat<T, 3, OtherR>&)`
(mat4xR.hpp lines 70-78). -/
def mat4_from_mat3 [Zero T] [One T] (other : Mat T 3 R') : Mat T 4 R :=
  cols4 (extend_ (other 0) 0 0) (extend_ (other 1) 0 0)
    (extend_ (other 2) 1 0) (ofVec4 (vec4l 0 0 0 1))

/-- Extend/truncate constructor `mat<T, 4, R>(const mat<T, 4, OtherR>&)`
(mat4xR.hpp lines 80-88). -/
def mat4_from_mat4 [Zero T] [One T] (other : Mat T 4 R') : Mat T 4 R :=
  cols4 (extend_ (other 0) 0 0) (extend_ (other 1) 0 0)
    (extend_ (other 2) 1 0) (extend_ (other 3) 0 1)

/-- `math::transpose` for a 3-row input: output column `i` is input row `i`
(mat3xR.hpp lines 1017-1026). -/
def transpose3 (m : Mat T R 3) : Mat T 3 R :=
  cols3 (row m 0) (row m 1) (row m 2)

/-- `math::transpose` for a 4-row input: output column `i` is input row `i`
(mat4xR.hpp lines 911-920). -/
def transpose4 (m : Mat T R 4) : Mat T 4 R :=
  cols4 (row m 0) (row m 1) (row m 2) (row m 3)

/-- Modelled from the spec: `math::transpose` for a 2-row input
(`mat2xR.hpp` is not among the provided sources; §4.1: each output column is
the corresponding input row). -/
def transpose2 (m : Mat T R 2) : Mat T 2 R :=
  cols2 (row m 0) (row m 1)

/-- CLAIM C9: after `set_column(i, v)`, `column(i)` returns `v`, and every
other column index `k ≠ i` still returns the column it held before the call;
no component outside column `i` is modified. -/
theorem set_column_frame_spec (m : Mat T C R) (i : Fin C) (v : Vec T R) :
    column (set_column m i v) i = v ∧
    ∀ k : Fin C, k ≠ i → column (set_column m i v) k = column m k := by
  constructor
  · show (if i = i then v else m i) = v
    rw [if_pos rfl]
  · intro k hk
    show (if k = i then v else m k) = m k
    rw [if_neg hk]

/-- Witness for C9 at a concrete matrix: writing column 0 of a 2x2 integer
matrix leaves column 1 unchanged and makes column 0 the written vector. -/
theorem set_column_frame_spec_check :
    column (set_column ((fun _ _ => (0 : ℤ)) : Mat ℤ 2 2) 0 (fun _ => 7)) 0 = (fun _ => 7) ∧
    column (set_column ((fun _ _ => (0 : ℤ)) : Mat ℤ 2 2) 0 (fun _ => 7)) 1 =
      column ((fun _ _ => (0 : ℤ)) : Mat ℤ 2 2) 1 :=
  ⟨(set_column_frame_spec _ _ _).1,
   (set_column_frame_spec _ _ _).2 1 (by decide)⟩

/-- CLAIM C7: for every matrix of every shape `(C, R)` with
`C, R ∈ {2, 3, 4}`, transposing twice reproduces the original matrix, where
`transpose` reads each output column as the corresponding input row. -/
theorem transpose_involutive_spec (T : Type) :
    (∀ m : Mat T 2 2, transpose2 (transpose2 m) = m) ∧
    (∀ m : Mat T 2 3, transpose2 (transpose3 m) = m) ∧
    (∀ m : Mat T 2 4, transpose2 (transpose4 m) = m) ∧
    (∀ m : Mat T 3 2, transpose3 (transpose2 m) = m) ∧
    (∀ m : Mat T 3 3, transpose3 (transpose3 m) = m) ∧
    (∀ m : Mat T 3 4, transpose3 (transpose4 m) = m) ∧
    (∀ m : Mat T 4 2, transpose4 (transpose2 m) = m) ∧
    (∀ m : Mat T 4 3, transpose4 (transpose3 m) = m) ∧
    (∀ m : Mat T 4 4, transpose4 (transpose4 m) = m) := by
  refine ⟨?_, ?_, ?_, ?_, ?_, ?_, ?_, ?_, ?_⟩ <;>
    · intro m
      funext i j
      fin_cases i <;> fin_cases j <;> rfl

/-- CLAIM C4: extending a `mat<T, 3, 3>` to `mat<T, 4, 4>` and truncating
back to `mat<T, 3, 3>` reproduces the original matrix. -/
theorem shape_round_trip_spec (T : Type) [Zero T] [One T] (m : Mat T 3 3) :
    mat3_from_mat4 (mat4_from_mat3 m : Mat T 4 4) = m := by
  funext i j
  fin_cases i <;> fin_cases j <;> rfl

/-- Helper: every component of the all-zero column `vec<T,R>(vec<T,4>(0,0,0,0))`. -/
lemma ofVec4_zeros [Zero T] (j : Fin R) : (ofVec4 (vec4l (0 : T) 0 0 0) : Vec T R) j = 0 := by
  simp only [ofVec4, vec4l]
  split_ifs <;> rfl

/-- CLAIM C6: the scalar constructor puts `s` on the diagonal up to
`min(C, R)` and `0` elsewhere; `identity()` is the constructor at `1` and
`zero()` the constructor at `0`; `mat<float, 3, 3>` identity has basis
columns and `row(1) = (0, 1, 0)` (float modelled by the exact reals). -/
theorem scalar_ctor_spec {T : Type} [Zero T] [One T] {R : ℕ} (s : T) :
    (∀ (i : Fin 2) (j : Fin R),
      mat2_scalar s i j = if i.val = j.val ∧ i.val < min 2 R then s else 0) ∧
    (∀ (i : Fin 3) (j : Fin R),
      mat3_scalar s i j = if i.val = j.val ∧ i.val < min 3 R then s else 0) ∧
    (∀ (i : Fin 4) (j : Fin R),
      mat4_scalar s i j = if i.val = j.val ∧ i.val < min 4 R then s else 0) ∧
    ((mat2_identity : Mat T 2 R) = mat2_scalar 1 ∧ (mat2_zero : Mat T 2 R) = mat2_scalar 0) ∧
    ((mat3_identity : Mat T 3 R) = mat3_scalar 1 ∧ (mat3_zero : Mat T 3 R) = mat3_scalar 0) ∧
    ((mat4_identity : Mat T 4 R) = mat4_scalar 1 ∧ (mat4_zero : Mat T 4 R) = mat4_scalar 0) ∧
    ((mat3_identity : Mat ℝ 3 3) 0 = vec3l 1 0 0 ∧
     (mat3_identity : Mat ℝ 3 3) 1 = vec3l 0 1 0 ∧
     (mat3_identity : Mat ℝ 3 3) 2 = vec3l 0 0 1 ∧
     row (mat3_identity : Mat ℝ 3 3) 1 = vec3l 0 1 0) := by
  refine ⟨?_, ?_, ?_, ⟨rfl, rfl⟩, ⟨rfl, rfl⟩, ⟨rfl, rfl⟩, ?_, ?_, ?_, ?_⟩
  · intro i j
    have hjR : j.val < R := j.isLt
    fin_cases i
    · show ofVec4 (vec4l s 0 0 0) j = _
      simp only [ofVec4, vec4l, Fin.val_mk, lt_min_iff]
      split_ifs <;> first | rfl | (exfalso; omega)
    · show ofVec4 (vec4l 0 s 0 0) j = _
      simp only [ofVec4, vec4l, Fin.val_mk, lt_min_iff]
      split_ifs <;> first | rfl | (exfalso; omega)
  · intro i j
    have hjR : j.val < R := j.isLt
    fin_cases i
    · show ofVec4 (vec4l s 0 0 0) j = _
      simp only [ofVec4, vec4l, Fin.val_mk, lt_min_iff]
      split_ifs <;> first | rfl | (exfalso; omega)
    · show ofVec4 (vec4l 0 s 0 0) j = _
      simp only [ofVec4, vec4l, Fin.val_mk, lt_min_iff]
      split_ifs <;> first | rfl | (exfalso; omega)
    · show ofVec4 (vec4l 0 0 s 0) j = _
      simp only [ofVec4, vec4l, Fin.val_mk, lt_min_iff]
      split_ifs <;> first | rfl | (exfalso; omega)
  · intro i j
    have hjR : j.val < R := j.isLt
    fin_cases i
    · show ofVec4 (vec4l s 0 0 0) j = _
      simp only [ofVec4, vec4l, Fin.val_mk, lt_min_iff]
      split_ifs <;> first | rfl | (exfalso; omega)
    · show ofVec4 (vec4l 0 s 0 0) j = _
      simp only [ofVec4, vec4l, Fin.val_mk, lt_min_iff]
      split_ifs <;> first | rfl | (exfalso; omega)
    · show ofVec4 (vec4l 0 0 s 0) j = _
      simp only [ofVec4, vec4l, Fin.val_mk, lt_min_iff]
      split_ifs <;> first | rfl | (exfalso; omega)
    · show ofVec4 (vec4l 0 0 0 s) j = _
      simp only [ofVec4, vec4l, Fin.val_mk, lt_min_iff]
      split_ifs <;> first | rfl | (exfalso; omega)
  · funext j; fin_cases j <;> rfl
  · funext j; fin_cases j <;> rfl
  · funext j; fin_cases j <;> rfl
  · funext i; fin_cases i <;> rfl

/-- Modelled from the spec: broadcast `vec + scalar` of the external vector
family (componentwise). -/
def vaddS [Add T] (v : Vec T R) (x : T) : Vec T R := fun j => v j + x

/-- Modelled from the spec: broadcast `vec * scalar` of the external vector
family (componentwise). -/
def vmulS [Mul T] (v : Vec T R) (x : T) : Vec T R := fun j => v j * x

/-- Modelled from the spec: componentwise `vec - vec` of the external vector
family. -/
def vsub [Sub T] (v w : Vec T R) : Vec T R := fun j => v j - w j

/-- `operator+(const mat<T,3,R>&, const U&)`: broadcast scalar addition over
every column (mat3xR.hpp lines 462-472). -/
def mat3_add_scalar [Add T] (m : Mat T 3 R) (x : T) : Mat T 3 R :=
  cols3 (vaddS (m 0) x) (vaddS (m 1) x) (vaddS (m 2) x)

/-- `operator*(const mat<T,3,R>&, const U&)`: broadcast scalar multiplication
over every column (mat3xR.hpp lines 540-550). -/
def mat3_mul_scalar [Mul T] (m : Mat T 3 R) (x : T) : Mat T 3 R :=
  cols3 (vmulS (m 0) x) (vmulS (m 1) x) (vmulS (m 2) x)

/-- `operator-(const mat<T,3,R>&, const mat<U,3,R>&)`: columnwise
subtraction (mat3xR.hpp lines 513-523). -/
def mat3_sub_mat [Sub T] (lhs rhs : Mat T 3 R) : Mat T 3 R :=
  cols3 (vsub (lhs 0) (rhs 0)) (vsub (lhs 1) (rhs 1)) (vsub (lhs 2) (rhs 2))

/-- `operator+(const mat<T,4,R>&, const U&)` (mat4xR.hpp lines 406-416). -/
def mat4_add_scalar [Add T] (m : Mat T 4 R) (x : T) : Mat T 4 R :=
  cols4 (vaddS (m 0) x) (vaddS (m 1) x) (vaddS (m 2) x) (vaddS (m 3) x)

/-- `operator*(const mat<T,4,R>&, const U&)` (mat4xR.hpp lines 478-488). -/
def mat4_mul_scalar [Mul T] (m : Mat T 4 R) (x : T) : Mat T 4 R :=
  cols4 (vmulS (m 0) x) (vmulS (m 1) x) (vmulS (m 2) x) (vmulS (m 3) x)

/-- `operator-(const mat<T,4,R>&, const mat<U,4,R>&)`
(mat4xR.hpp lines 454-464). -/
def mat4_sub_mat [Sub T] (lhs rhs : Mat T 4 R) : Mat T 4 R :=
  cols4 (vsub (lhs 0) (rhs 0)) (vsub (lhs 1) (rhs 1))
    (vsub (lhs 2) (rhs 2)) (vsub (lhs 3) (rhs 3))

/-- `operator==` of `mat<T,3,R>`: exact componentwise comparison across all
columns (mat3xR.hpp lines 828-836; the external `vec ==` is exact
componentwise equality). -/
def mat3_eq (lhs rhs : Mat T 3 R) : Prop :=
  lhs 0 = rhs 0 ∧ lhs 1 = rhs 1 ∧ lhs 2 = rhs 2

/-- `operator==` of `mat<T,4,R>` (mat4xR.hpp lines 741-749). -/
def mat4_eq (lhs rhs : Mat T 4 R) : Prop :=
  lhs 0 = rhs 0 ∧ lhs 1 = rhs 1 ∧ lhs 2 = rhs 2 ∧ lhs 3 = rhs 3

/-- CLAIM C8: the broadcast operators satisfy `(m + 0) == m`, `(m * 1) == m`
and `(m - m) == zero()` for every matrix, for both the 3-column and the
4-column shapes, under the library's componentwise `==`. -/
theorem broadcast_identities_spec {T : Type} [Ring T] {R : ℕ} :
    (∀ m : Mat T 3 R,
      mat3_eq (mat3_add_scalar m 0) m ∧ mat3_eq (mat3_mul_scalar m 1) m ∧
      mat3_eq (mat3_sub_mat m m) mat3_zero) ∧
    (∀ m : Mat T 4 R,
      mat4_eq (mat4_add_scalar m 0) m ∧ mat4_eq (mat4_mul_scalar m 1) m ∧
      mat4_eq (mat4_sub_mat m m) mat4_zero) := by
  constructor
  · intro m
    refine ⟨⟨?_, ?_, ?_⟩, ⟨?_, ?_, ?_⟩, ⟨?_, ?_, ?_⟩⟩ <;> funext j
    · exact add_zero (m 0 j)
    · exact add_zero (m 1 j)
    · exact add_zero (m 2 j)
    · exact mul_one (m 0 j)
    · exact mul_one (m 1 j)
    · exact mul_one (m 2 j)
    · show m 0 j - m 0 j = mat3_zero 0 j
      rw [sub_self]
      exact (ofVec4_zeros j).symm
    · show m 1 j - m 1 j = mat3_zero 1 j
      rw [sub_self]
      exact (ofVec4_zeros j).symm
    · show m 2 j - m 2 j = mat3_zero 2 j
      rw [sub_self]
      exact (ofVec4_zeros j).symm
  · intro m
    refine ⟨⟨?_, ?_, ?_, ?_⟩, ⟨?_, ?_, ?_, ?_⟩, ⟨?_, ?_, ?_, ?_⟩⟩ <;> funext j
    · exact add_zero (m 0 j)
    · exact add_zero (m 1 j)
    · exact add_zero (m 2 j)
    · exact add_zero (m 3 j)
    · exact mul_one (m 0 j)
    · exact mul_one (m 1 j)
    · exact mul_one (m 2 j)
    · exact mul_one (m 3 j)
    · show m 0 j - m 0 j = mat4_zero 0 j
      rw [sub_self]
      exact (ofVec4_zeros j).symm
    · show m 1 j - m 1 j = mat4_zero 1 j
      rw [sub_self]
      exact (ofVec4_zeros j).symm
    · show m 2 j - m 2 j = mat4_zero 2 j
      rw [sub_self]
      exact (ofVec4_zeros j).symm
    · show m 3 j - m 3 j = mat4_zero 3 j
      rw [sub_self]
      exact (ofVec4_zeros j).symm

/-- The spec's wording of the extend rule (§3), stated independently of the
constructors: each of the first `Cs` output columns is the input column on
the rows it already had, with inserted rows `0` except the row equal to the
column's own index, which is `1`; columns beyond `Cs` are identity basis
columns (`1` at the row equal to the column index, `0` elsewhere). -/
def matExtendSpec [Zero T] [One T] {Cs Rs : ℕ} (other : Mat T Cs Rs) : Mat T C R :=
  fun i j =>
    if hi : i.val < Cs then
      if hj : j.val < Rs then other ⟨i.val, hi⟩ ⟨j.val, hj⟩
      else if j.val = i.val then 1 else 0
    else if j.val = i.val then 1 else 0

/-- CLAIM C2: every column-growing matrix constructor (`mat3` from a 2-column
matrix, `mat3` from a 3-column matrix, `mat4` from a 2-, 3- or 4-column
matrix, over all row counts of the family) produces exactly the matrix
described by the spec's §3 extend rule (`matExtendSpec`). -/
theorem extend_ctor_spec {T : Type} [Zero T] [One T] {R R' : ℕ}
    (hR : R ≤ 4) (hR' : 2 ≤ R') :
    (∀ other : Mat T 2 R', (mat3_from_mat2 other : Mat T 3 R) = matExtendSpec other) ∧
    (∀ other : Mat T 3 R', (mat3_from_mat3 other : Mat T 3 R) = matExtendSpec other) ∧
    (∀ other : Mat T 2 R', (mat4_from_mat2 other : Mat T 4 R) = matExtendSpec other) ∧
    (∀ other : Mat T 3 R', (mat4_from_mat3 other : Mat T 4 R) = matExtendSpec other) ∧
    (∀ other : Mat T 4 R', (mat4_from_mat4 other : Mat T 4 R) = matExtendSpec other) := by
  refine ⟨?_, ?_, ?_, ?_, ?_⟩ <;> intro other <;> funext i j <;>
    have hjR : j.val < R := j.isLt <;>
    have hj4 : j.val < 4 := lt_of_lt_of_le hjR hR
  · fin_cases i
    · show extend_ (other 0) 0 0 j = _
      simp only [matExtendSpec, extend_, Fin.val_mk]
      split_ifs <;> first | rfl | (exfalso; omega)
    · show extend_ (other 1) 0 0 j = _
      simp only [matExtendSpec, extend_, Fin.val_mk]
      split_ifs <;> first | rfl | (exfalso; omega)
    · show ofVec4 (vec4l 0 0 1 0) j = _
      simp only [matExtendSpec, ofVec4, vec4l, Fin.val_mk]
      split_ifs <;> first | rfl | (exfalso; omega)
  · fin_cases i
    · show extend_ (other 0) 0 0 j = _
      simp only [matExtendSpec, extend_, Fin.val_mk]
      split_ifs <;> first | rfl | (exfalso; omega)
    · show extend_ (other 1) 0 0 j = _
      simp only [matExtendSpec, extend_, Fin.val_mk]
      split_ifs <;> first | rfl | (exfalso; omega)
    · show extend_ (other 2) 1 0 j = _
      simp only [matExtendSpec, extend_, Fin.val_mk]
      split_ifs <;> first | rfl | (exfalso; omega)
  · fin_cases i
    · show extend_ (other 0) 0 0 j = _
      simp only [matExtendSpec, extend_, Fin.val_mk]
      split_ifs <;> first | rfl | (exfalso; omega)
    · show extend_ (other 1) 0 0 j = _
      simp only [matExtendSpec, extend_, Fin.val_mk]
      split_ifs <;> first | rfl | (exfalso; omega)
    · show ofVec4 (vec4l 0 0 1 0) j = _
      simp only [matExtendSpec, ofVec4, vec4l, Fin.val_mk]
      split_ifs <;> first | rfl | (exfalso; omega)
    · show ofVec4 (vec4l 0 0 0 1) j = _
      simp only [matExtendSpec, ofVec4, vec4l, Fin.val_mk]
      split_ifs <;> first | rfl | (exfalso; omega)
  · fin_cases i
    · show extend_ (other 0) 0 0 j = _
      simp only [matExtendSpec, extend_, Fin.val_mk]
      split_ifs <;> first | rfl | (exfalso; omega)
    · show extend_ (other 1) 0 0 j = _
      simp only [matExtendSpec, extend_, Fin.val_mk]
      split_ifs <;> first | rfl | (exfalso; omega)
    · show extend_ (other 2) 1 0 j = _
      simp only [matExtendSpec, extend_, Fin.val_mk]
      split_ifs <;> first | rfl | (exfalso; omega)
    · show ofVec4 (vec4l 0 0 0 1) j = _
      simp only [matExtendSpec, ofVec4, vec4l, Fin.val_mk]
      split_ifs <;> first | rfl | (exfalso; omega)
  · fin_cases i
    · show extend_ (other 0) 0 0 j = _
      simp only [matExtendSpec, extend_, Fin.val_mk]
      split_ifs <;> first | rfl | (exfalso; omega)
    · show extend_ (other 1) 0 0 j = _
      simp only [matExtendSpec, extend_, Fin.val_mk]
      split_ifs <;> first | rfl | (exfalso; omega)
    · show extend_ (other 2) 1 0 j = _
      simp only [matExtendSpec, extend_, Fin.val_mk]
      split_ifs <;> first | rfl | (exfalso; omega)
    · show extend_ (other 3) 0 1 j = _
      simp only [matExtendSpec, extend_, Fin.val_mk]
      split_ifs <;> first | rfl | (exfalso; omega)

/-- Witness for C2 at a concrete shape: extending a constant 3x2 integer
matrix to 4x4 matches the spec's extend rule. -/
theorem extend_ctor_spec_check :
    (mat4_from_mat3 ((fun _ _ => (2 : ℤ)) : Mat ℤ 3 2) : Mat ℤ 4 4) =
      matExtendSpec ((fun _ _ => (2 : ℤ)) : Mat ℤ 3 2) :=
  (@extend_ctor_spec ℤ _ _ 4 2 (by norm_num) (by norm_num)).2.2.2.1
    ((fun _ _ => (2 : ℤ)) : Mat ℤ 3 2)

/-!
The transform/rotation module (`transform.hpp`), embedded over the exact
reals (the idealization of the floating component type; the spec's claims
about these conversions are stated over exact arithmetic).  The scalar-layer
helpers (`length`, `not_equal`, `select`, `sincos`, the unit-Z constant and
the broadcast vector arithmetic) live in `math.hpp`/`vec.hpp`, which are not
among the provided sources, and are modelled from the spec.
-/

/-- Modelled from the spec: `tue::math::length` of a 3-component vector —
the square root of the sum of the squared components (scalar layer,
`math.hpp` not among the provided sources). -/
noncomputable def length3 (v : Vec ℝ 3) : ℝ :=
  Real.sqrt (v 0 * v 0 + v 1 * v 1 + v 2 * v 2)

/-- Modelled from the spec: the named constant `vec3<U>::z_axis()` of the
external vector family. -/
def zAxis : Vec ℝ 3 := vec3l 0 0 1

/-- Modelled from the spec: `tue::math::not_equal` — the exact inequality
mask over the component type. -/
def not_equal (a b : ℝ) : Prop := a ≠ b

/-- Modelled from the spec: `tue::math::select` — an unconditional
select/blend over the mask (§9), picking the first argument where the mask
holds. -/
noncomputable def select {α : Type} (c : Prop) (t f : α) : α :=
  @ite _ c (Classical.propDecidable c) t f

/-- Modelled from the spec: broadcast `vec3 / scalar` of the external vector
family (componentwise). -/
noncomputable def vdivS (v : Vec ℝ 3) (a : ℝ) : Vec ℝ 3 := fun j => v j / a

/-- Modelled from the spec: the `vec4(vec3, w)` constructor used for the
`{axis, angle}` return value. -/
noncomputable def vec4app (a : Vec ℝ 3) (w : ℝ) : Vec ℝ 4 :=
  vec4l (a 0) (a 1) (a 2) w

/-- `transform::axis_angle(const vec3<T>&)` (transform.hpp lines 34-46):
`angle = length(v)`, `axis = select(not_equal(angle, 0), v / angle,
z_axis())`, returns `{axis, angle}` (the source's locals are inlined). -/
noncomputable def axis_angle (v : Vec ℝ 3) : Vec ℝ 4 :=
  vec4app (select (not_equal (length3 v) 0) (vdivS v (length3 v)) zAxis)
    (length3 v)

/-- `transform::rotation_vec(const vec4<T>&)` (transform.hpp lines 116-125):
the first three components times the fourth. -/
noncomputable def rotation_vec4 (v : Vec ℝ 4) : Vec ℝ 3 :=
  vec3l (v 0 * v 3) (v 1 * v 3) (v 2 * v 3)

/-- Modelled from the spec: `tue::math::sincos` — the combined sine/cosine
computation of the scalar layer (`math.hpp` not among the provided
sources). -/
noncomputable def sincos (x : ℝ) : ℝ × ℝ := (Real.sin x, Real.cos x)

/-- `transform::rotation_quat(const vec3<T>&, const T&)` (transform.hpp
lines 137-145): one `sincos` at half the angle, returns `{axis * s, c}`. -/
noncomputable def rotation_quat_aa (axis : Vec ℝ 3) (angle : ℝ) : Vec ℝ 4 :=
  vec4app (vmulS axis (sincos (angle / 2)).1) (sincos (angle / 2)).2

/-- `transform::rotation_quat(const vec4<T>&)` (transform.hpp lines
176-184) with the source's slip repaired: the source body reads an
identifier `angle` that is not declared in this overload (so the template
cannot compile); by the overload's own documentation and the parallel
`(x, y, z, angle)` overload at lines 159-168, the intended value is `v[3]`.
-/
noncomputable def rotation_quat_v4 (v : Vec ℝ 4) : Vec ℝ 4 :=
  vec4l (v 0 * (sincos (v 3 / 2)).1) (v 1 * (sincos (v 3 / 2)).1)
    (v 2 * (sincos (v 3 / 2)).1) (sincos (v 3 / 2)).2

/-- `transform::rotation_quat(const vec3<T>&)` (transform.hpp lines
195-201): the composition `rotation_quat(axis_angle(v))`. -/
noncomputable def rotation_quat_v3 (v : Vec ℝ 3) : Vec ℝ 4 :=
  rotation_quat_v4 (axis_angle v)

/-- Helper: when the length is nonzero, the select picks the normalized
axis. -/
lemma axis_angle_pos (v : Vec ℝ 3) (h : length3 v ≠ 0) :
    axis_angle v = vec4app (vdivS v (length3 v)) (length3 v) := by
  unfold axis_angle select not_equal
  rw [if_pos h]

/-- Helper: when the length is zero, the select picks the unit-Z fallback
and the result is exactly `(0, 0, 1, 0)`. -/
lemma axis_angle_zero (v : Vec ℝ 3) (h : length3 v = 0) :
    axis_angle v = vec4l 0 0 1 0 := by
  unfold axis_angle select not_equal
  rw [if_neg (not_not_intro h), h]
  rfl

/-- Helper: a vector of zero length is the zero vector (exact reals). -/
lemma length3_zero_vec (v : Vec ℝ 3) (h : length3 v = 0) : v = vec3l 0 0 0 := by
  have hsum : v 0 * v 0 + v 1 * v 1 + v 2 * v 2 ≤ 0 := Real.sqrt_eq_zero'.mp h
  have h0 : v 0 = 0 := by
    have : v 0 * v 0 = 0 :=
      le_antisymm (by nlinarith [mul_self_nonneg (v 1), mul_self_nonneg (v 2)])
        (mul_self_nonneg (v 0))
    exact mul_self_eq_zero.mp this
  have h1 : v 1 = 0 := by
    have : v 1 * v 1 = 0 :=
      le_antisymm (by nlinarith [mul_self_nonneg (v 0), mul_self_nonneg (v 2)])
        (mul_self_nonneg (v 1))
    exact mul_self_eq_zero.mp this
  have h2 : v 2 = 0 := by
    have : v 2 * v 2 = 0 :=
      le_antisymm (by nlinarith [mul_self_nonneg (v 0), mul_self_nonneg (v 1)])
        (mul_self_nonneg (v 2))
    exact mul_self_eq_zero.mp this
  funext j
  fin_cases j
  · exact h0
  · exact h1
  · exact h2

/-- CLAIM C1: `axis_angle(v)` has angle component equal to the length of
`v`; when that length is nonzero the axis is `v` divided by the length, and
when the length is exactly zero the result is exactly `(0, 0, 1, 0)` — the
select yields the canonical unit-Z fallback, untouched by the division. -/
theorem axis_angle_spec (v : Vec ℝ 3) :
    axis_angle v 3 = length3 v ∧
    (length3 v ≠ 0 → axis_angle v = vec4app (vdivS v (length3 v)) (length3 v)) ∧
    (length3 v = 0 → axis_angle v = vec4l 0 0 1 0) :=
  ⟨rfl, fun h => axis_angle_pos v h, fun h => axis_angle_zero v h⟩

/-- Witness for C1: the zero rotation vector yields exactly `(0, 0, 1, 0)`,
and a unit-Z rotation vector (length `1`) yields the normalized form. -/
theorem axis_angle_spec_check :
    axis_angle (vec3l 0 0 0) = vec4l 0 0 1 0 ∧
    axis_angle (vec3l 0 0 1) =
      vec4app (vdivS (vec3l 0 0 1) (length3 (vec3l 0 0 1)))
        (length3 (vec3l 0 0 1)) := by
  constructor
  · exact (axis_angle_spec (vec3l 0 0 0)).2.2 (by
      show Real.sqrt ((0 : ℝ) * 0 + 0 * 0 + 0 * 0) = 0
      norm_num)
  · exact (axis_angle_spec (vec3l 0 0 1)).2.1 (by
      show Real.sqrt ((0 : ℝ) * 0 + 0 * 0 + 1 * 1) ≠ 0
      rw [show (0 : ℝ) * 0 + 0 * 0 + 1 * 1 = 1 by norm_num, Real.sqrt_one]
      exact one_ne_zero)

/-- CLAIM C10: over exact arithmetic `rotation_vec(axis_angle(v)) = v` for
every rotation vector `v`, with no precondition: in the degenerate case the
fallback axis `(0, 0, 1)` times the fallback angle `0` is the zero vector
again. -/
theorem rotation_vec_round_trip_spec (v : Vec ℝ 3) :
    rotation_vec4 (axis_angle v) = v := by
  by_cases h : length3 v = 0
  · rw [axis_angle_zero v h, length3_zero_vec v h]
    funext j
    fin_cases j
    · show (0 : ℝ) * 0 = 0
      norm_num
    · show (0 : ℝ) * 0 = 0
      norm_num
    · show (1 : ℝ) * 0 = 0
      norm_num
  · rw [axis_angle_pos v h]
    funext j
    fin_cases j
    · exact div_mul_cancel₀ (v 0) h
    · exact div_mul_cancel₀ (v 1) h
    · exact div_mul_cancel₀ (v 2) h

/-- CLAIM C5: `rotation_quat(axis, angle)` is exactly the quaternion
`(axis * sin(angle / 2), cos(angle / 2))`, both half-angle values produced
by the single combined `sincos` evaluation at `angle / 2`. -/
theorem rotation_quat_axis_angle_spec (axis : Vec ℝ 3) (angle : ℝ) :
    rotation_quat_aa axis angle =
      vec4app (vmulS axis (Real.sin (angle / 2))) (Real.cos (angle / 2)) ∧
    sincos (angle / 2) = (Real.sin (angle / 2), Real.cos (angle / 2)) :=
  ⟨rfl, rfl⟩

/-- CLAIM C3 (on the repaired model): `rotation_quat(rotation vector)` is
the composition `rotation_quat(axis_angle(v))`, and at the zero rotation
vector it returns exactly the identity quaternion `(0, 0, 0, 1)`.  The
source overload it goes through (transform.hpp lines 176-184) reads the
undeclared identifier `angle` and does not compile as written; this theorem
evaluates the overload with `angle` repaired to `v[3]` as its documentation
and the sibling overload dictate. -/
theorem rotation_quat_zero_spec :
    (∀ v : Vec ℝ 3, rotation_quat_v3 v = rotation_quat_v4 (axis_angle v)) ∧
    rotation_quat_v3 (vec3l 0 0 0) = vec4l 0 0 0 1 := by
  refine ⟨fun v => rfl, ?_⟩
  show rotation_quat_v4 (axis_angle (vec3l 0 0 0)) = vec4l 0 0 0 1
  rw [axis_angle_zero (vec3l 0 0 0) (by
    show Real.sqrt ((0 : ℝ) * 0 + 0 * 0 + 0 * 0) = 0
    norm_num)]
  funext j
  fin_cases j
  · show (0 : ℝ) * (sincos ((0 : ℝ) / 2)).1 = 0
    norm_num
  · show (0 : ℝ) * (sincos ((0 : ℝ) / 2)).1 = 0
    norm_num
  · show (1 : ℝ) * (sincos ((0 : ℝ) / 2)).1 = 0
    simp [sincos]
  · show (sincos ((0 : ℝ) / 2)).2 = 1
    simp [sincos]

end Tue
